import Mathlib

/-
Verification development for the content-visualiser backend
(src/backend/app).  Python definitions are translated into Lean as
executable functions; machine-level details that no claim depends on
(timestamps from datetime.utcnow) are modelled by a tick counter.
-/

/-! ### String primitives

Python string methods are modelled on the character list underlying a
`String`, which keeps every definition reducible by the kernel (the core
`String.toLower` and `String.trim` recurse on byte positions by
well-founded recursion and do not reduce definitionally). -/

/-- `Char.lower` for the ASCII range, matching Python `str.lower()` on the
ASCII identifiers this code base compares. -/
def charLower (c : Char) : Char :=
  if 'A' ≤ c ∧ c ≤ 'Z' then Char.ofNat (c.toNat + 32) else c

/-- Python `str.lower()` (ASCII). -/
def strLower (s : String) : String := String.mk (s.data.map charLower)

/-- Python `re` whitespace class for ASCII input. -/
def isWsChar (c : Char) : Bool :=
  c = ' ' || c = '\t' || c = '\n' || c = '\r' || c = '\x0b' || c = '\x0c'

/-- Python `str.strip()` (ASCII whitespace). -/
def strTrim (s : String) : String :=
  String.mk (((s.data.dropWhile isWsChar).reverse.dropWhile isWsChar).reverse)

/-- Whether an `Except` is a success. -/
def exceptIsOk : Except ε α → Bool
  | .ok _ => true
  | .error _ => false

/-- Decidable equality for `Except`, used by concrete witnesses. -/
instance instDecEqExcept [DecidableEq ε] [DecidableEq α] : DecidableEq (Except ε α) :=
  fun a b =>
    match a, b with
    | .ok x, .ok y =>
        if h : x = y then .isTrue (by rw [h]) else .isFalse (by simp [h])
    | .error x, .error y =>
        if h : x = y then .isTrue (by rw [h]) else .isFalse (by simp [h])
    | .ok _, .error _ => .isFalse (by simp)
    | .error _, .ok _ => .isFalse (by simp)

/-! ### Strategy registry (visualization_factory.py) -/

/-- Tags for the concrete strategy classes registered in
`VisualizationFactory.__init__`. -/
inductive StrategyTag where
  | flowchart
  | mindmap
deriving DecidableEq, Repr

/-- The `_strategies` dict after `__init__` ran `register_strategy("flowchart", ...)`
and `register_strategy("mindmap", ...)`; `register_strategy` lowercases the key. -/
def registered_strategies : List (String × StrategyTag) :=
  [("flowchart", .flowchart), ("mindmap", .mindmap)]

/-- Association-list lookup, modelling Python `dict.get`. -/
def assoc_get : List (String × StrategyTag) → String → Option StrategyTag
  | [], _ => none
  | (k, v) :: rest, key => if k = key then some v else assoc_get rest key

/-- `VisualizationFactory.get_supported_types`: the keys of `_strategies`. -/
def get_supported_types : List String := registered_strategies.map (fun p => p.1)

/-- `VisualizationFactory.create_strategy`: looks up `type_name.lower()`;
raises `ValueError` (modelled as `.error`) when absent. -/
def create_strategy (type_name : String) : Except String StrategyTag :=
  match assoc_get registered_strategies (strLower type_name) with
  | some s => .ok s
  | none =>
      .error ("Unsupported visualization type: " ++ type_name ++ ". Supported types are: "
        ++ String.intercalate ", " get_supported_types ++ ".")

/-- `llm_service.get_supported_visualization_types`. -/
def get_supported_visualization_types : List String := get_supported_types

/-! ### Job data model (main.py) -/

/-- `JobStatus` enum from main.py. -/
inductive JobStatus where
  | pending
  | running
  | succeeded
  | failed
deriving DecidableEq, Repr

/-- `VisualizationOptions` (visualization_strategy.py).  Note: `max_depth`
is a plain `int` field with default 4 and no positivity validator. -/
structure VisualizationOptions where
  complexity : String := "balanced"
  max_depth : Int := 4
  style : String := "default"
deriving DecidableEq, Repr

/-- `VisualizationResult` (visualization_strategy.py); metadata values in
this code base are the integers total_nodes / actual_depth / requested_max_depth,
so metadata is modelled as a String-to-Int association list. -/
structure VisualizationResult where
  type : String
  content : String
  metadata : List (String × Int)
deriving DecidableEq, Repr

/-- `VisualizationJob` (main.py).  Timestamps are abstract Nat instants
(seconds); `updated_at` advances by one tick per store write. -/
structure Job where
  id : String
  status : JobStatus
  visualization_type : String
  content : Option String
  metadata : List (String × Int)
  error : Option String
  created_at : Nat
  updated_at : Nat
  expires_at : Nat
  attempts : Nat
deriving DecidableEq, Repr

/-- The `_jobs` dict, as an association list. -/
abbrev Store := List (String × Job)

/-- `_jobs.get(job_id)`. -/
def store_get : Store → String → Option Job
  | [], _ => none
  | (k, v) :: rest, key => if k = key then some v else store_get rest key

/-- `del _jobs[job_id]`. -/
def store_del : Store → String → Store
  | [], _ => []
  | (k, v) :: rest, key =>
      if k = key then store_del rest key else (k, v) :: store_del rest key

/-- TTL used in `visualize`: `timedelta(seconds=3600)`. -/
def job_expiry_seconds : Nat := 3600

/-- The job record built by the `visualize` endpoint. -/
def create_job_record (job_id vtype : String) (now : Nat) : Job :=
  { id := job_id
    status := .pending
    visualization_type := vtype
    content := none
    metadata := []
    error := none
    created_at := now
    updated_at := now
    expires_at := now + job_expiry_seconds
    attempts := 0 }

/-- Outcome of the `POST /visualize` handler: HTTP 400 with a detail string,
or a `(job_id, status)` creation response. -/
def visualize (store : Store) (visualization_type : String) (job_id : String) (now : Nat) :
    Except (Nat × String) (String × JobStatus) × Store :=
  if get_supported_visualization_types.contains (strLower visualization_type) then
    let job := create_job_record job_id (strLower visualization_type) now
    (.ok (job_id, .pending), store ++ [(job_id, job)])
  else
    (.error (400, "Unsupported visualization type: " ++ visualization_type
        ++ ". Supported types are: "
        ++ String.intercalate ", " get_supported_visualization_types ++ "."),
      store)

/-- Result of the `GET /visualize/{job_id}` handler. -/
inductive PollOutcome where
  | notFound (detail : String)
  | found (job_id : String) (status : JobStatus) (visualization_type : String)
      (content : Option String) (metadata : List (String × Int)) (error : Option String)
deriving DecidableEq, Repr

/-- `get_visualization_job` (main.py): absent id gives 404; a present but
expired record is deleted and gives 404; otherwise a snapshot is returned. -/
def get_visualization_job (store : Store) (now : Nat) (job_id : String) :
    PollOutcome × Store :=
  match store_get store job_id with
  | none =>
      (.notFound ("Visualization job " ++ job_id ++ " not found or expired."), store)
  | some job =>
      if job.expires_at < now then
        (.notFound ("Visualization job " ++ job_id ++ " has expired and was removed."),
          store_del store job_id)
      else
        (.found job.id job.status job.visualization_type job.content job.metadata job.error,
          store)

/-! ### Mindmap strategy (mindmap_strategy.py) -/

/-- `MindmapNode` (pydantic model): a title plus children.  The Python field
is `Optional[List[MindmapNode]] = None`, but every use guards it with
`if node.children:` which treats `None` and `[]` identically, so `None` is
modelled as the empty list. -/
inductive MindmapNode : Type where
  | node : String → List MindmapNode → MindmapNode

/-- Title projection. -/
def MindmapNode.title : MindmapNode → String
  | .node t _ => t

/-- Children projection. -/
def MindmapNode.children : MindmapNode → List MindmapNode
  | .node _ cs => cs

mutual
/-- `MindmapStrategy._count_nodes`: one for the node itself plus all
descendants. -/
def count_nodes : MindmapNode → Nat
  | .node _ cs => 1 + count_nodes_list cs
/-- The `for child in node.children` accumulation inside `_count_nodes`. -/
def count_nodes_list : List MindmapNode → Nat
  | [] => 0
  | c :: cs => count_nodes c + count_nodes_list cs
end

mutual
/-- `MindmapStrategy._calculate_depth` with accumulator `current_depth`
(defaulting to 1 at the top call): a leaf reports `current_depth`, an inner
node reports the maximum over `_calculate_depth(child, current_depth + 1)`
starting from 0 (the children list being nonempty keeps this sound). -/
def calculate_depth : MindmapNode → Nat → Nat
  | .node _ [], current_depth => current_depth
  | .node _ (c :: cs), current_depth => max_child_depth (c :: cs) current_depth
/-- The `max_child_depth` fold inside `_calculate_depth` (max of the
children's depths, starting from 0). -/
def max_child_depth : List MindmapNode → Nat → Nat
  | [], _ => 0
  | c :: cs, current_depth =>
      Nat.max (calculate_depth c (current_depth + 1)) (max_child_depth cs current_depth)
end

/-- The string `"#" * n`. -/
def hashes (n : Nat) : String := String.mk (List.replicate n '#')

/-- Python `"\n".join(lines)`. -/
def joinNL : List String → String
  | [] => ""
  | s :: rest =>
      match rest with
      | [] => s
      | _ :: _ => s ++ "\n" ++ joinNL rest

mutual
/-- `MindmapStrategy._json_to_markdown`: returns `""` for a node at
`current_depth >= max_depth`; otherwise emits the heading
`"#" * (current_depth + 1) ++ " " ++ title` followed by the non-empty
child renders, joined with newlines. -/
def json_to_markdown : MindmapNode → Int → Nat → String
  | .node title cs, max_depth, current_depth =>
      if (current_depth : Int) ≥ max_depth then ""
      else
        joinNL ((hashes (current_depth + 1) ++ " " ++ title)
          :: child_blocks cs max_depth (current_depth + 1))
/-- The `for child in node.children` loop inside `_json_to_markdown`:
appends `child_markdown` only when it is non-empty (Python truthiness). -/
def child_blocks : List MindmapNode → Int → Nat → List String
  | [], _, _ => []
  | c :: cs, max_depth, d =>
      let m := json_to_markdown c max_depth d
      if m = "" then child_blocks cs max_depth d
      else m :: child_blocks cs max_depth d
end

mutual
/-- Analysis view of `_json_to_markdown`: the list of heading lines it
emits (the rendered string is their newline-join, proved below). -/
def renderLines : MindmapNode → Int → Nat → List String
  | .node title cs, max_depth, d =>
      if (d : Int) ≥ max_depth then []
      else (hashes (d + 1) ++ " " ++ title) :: renderLinesList cs max_depth (d + 1)
/-- Line lists of a list of children, concatenated. -/
def renderLinesList : List MindmapNode → Int → Nat → List String
  | [], _, _ => []
  | c :: cs, max_depth, d => renderLines c max_depth d ++ renderLinesList cs max_depth d
end

mutual
/-- Preorder traversal of the full (unpruned) tree, pairing each node's
depth (root at `d`) with its title. -/
def nodesWithDepth : MindmapNode → Nat → List (Nat × String)
  | .node title cs, d => (d, title) :: nodesWithDepthList cs (d + 1)
/-- Traversal of a list of siblings at a common depth. -/
def nodesWithDepthList : List MindmapNode → Nat → List (Nat × String)
  | [], _ => []
  | c :: cs, d => nodesWithDepth c d ++ nodesWithDepthList cs d
end

mutual
/-- True when no title in the tree contains a newline character (so each
node contributes exactly one line to the rendered markdown). -/
def newlineFree : MindmapNode → Bool
  | .node title cs => !(title.data.contains '\n') && newlineFreeList cs
/-- `newlineFree` over a list of trees. -/
def newlineFreeList : List MindmapNode → Bool
  | [] => true
  | c :: cs => newlineFree c && newlineFreeList cs
end

/-- Splitting a character list at newline characters (the lines of a
string, in the usual sense). -/
def splitNLChars : List Char → List (List Char)
  | [] => [[]]
  | c :: cs =>
      let r := splitNLChars cs
      if c = '\n' then [] :: r
      else
        match r with
        | [] => [[c]]
        | h :: t => (c :: h) :: t

/-- The lines of a string. -/
def strLines (s : String) : List String := (splitNLChars s.data).map (fun l => String.mk l)

/-- Length of the leading run of markdown heading markers. -/
def countLeadingHash : List Char → Nat
  | [] => 0
  | c :: cs => if c = '#' then 1 + countLeadingHash cs else 0

/-- Markdown heading level of a line (leading run of `#`). -/
def leadingHashes (s : String) : Nat := countLeadingHash s.data

/-- Matching the regex `\s*#+\s.+` at a fixed position (the character
classes are disjoint, so the match is deterministic). -/
def headingMatchHere (cs : List Char) : Bool :=
  let r1 := cs.dropWhile isWsChar
  match r1 with
  | '#' :: _ =>
      match r1.dropWhile (fun c => c = '#') with
      | c :: rest =>
          match rest with
          | d :: _ => isWsChar c && !(d = '\n')
          | [] => false
      | [] => false
  | _ => false

/-- `re.search(r'^\s*#+\s.+', content, re.MULTILINE)`: tries the body match
at the string start and after every newline. -/
def headingSearchAux : List Char → Bool
  | [] => false
  | c :: rest => (if c = '\n' then headingMatchHere rest else false) || headingSearchAux rest

/-- Whether the MULTILINE heading regex matches anywhere in the string. -/
def hasHeadingMatch (s : String) : Bool :=
  headingMatchHere s.data || headingSearchAux s.data

/-- `MindmapStrategy.validate_content`: rejects empty/short content,
content without a markdown heading, and content longer than 50000. -/
def mindmap_validate_content (content : String) : Bool :=
  if content = "" || (strTrim content).length < 10 then false
  else if !hasHeadingMatch content then false
  else if content.length > 50000 then false
  else true

/-! ### Python exception model and the strategy / service wrappers -/

/-- The exception classes relevant to this code base.  `jsonDecodeError`
(`json.JSONDecodeError`) and `pydanticValidationError`
(`pydantic.ValidationError`) are subclasses of `ValueError`;
`serverError` is `google.genai.errors.ServerError` carrying an optional
structured status code plus its rendered text; `otherExc` is any other
`Exception`. -/
inductive PyExc where
  | valueError (msg : String)
  | runtimeError (msg : String)
  | jsonDecodeError (msg : String)
  | pydanticValidationError (msg : String)
  | serverError (status_code : Option Nat) (text : String)
  | otherExc (msg : String)
deriving DecidableEq, Repr

/-- `str(exc)`. -/
def excStr : PyExc → String
  | .valueError m => m
  | .runtimeError m => m
  | .jsonDecodeError m => m
  | .pydanticValidationError m => m
  | .serverError _ t => t
  | .otherExc m => m

/-- Whether `isinstance(exc, ValueError)` holds. -/
def isValueErrorClass : PyExc → Bool
  | .valueError _ => true
  | .jsonDecodeError _ => true
  | .pydanticValidationError _ => true
  | _ => false

/-- Whether `isinstance(exc, RuntimeError)` holds. -/
def isRuntimeErrorClass : PyExc → Bool
  | .runtimeError _ => true
  | _ => false

/-- The `except` ladder of `FlowchartStrategy.generate` applied to an
exception `e` raised by its body (provider call, JSON extraction,
rendering, validation): `json.JSONDecodeError` becomes a `ValueError`
wrap, everything else — including `genai` `ServerError` — is caught by
`except Exception` and re-raised as `RuntimeError`. -/
def flowchart_generate_wrap (e : PyExc) : Except PyExc VisualizationResult :=
  match e with
  | .jsonDecodeError m => .error (.valueError ("Failed to parse JSON from LLM response: " ++ m))
  | e => .error (.runtimeError ("Flowchart generation failed: " ++ excStr e))

/-- The `except` ladder of `MindmapStrategy.generate` applied to an
exception raised by its body: pydantic `ValidationError` and
`json.JSONDecodeError` become `ValueError` wraps, everything else —
including `genai` `ServerError` — becomes a `RuntimeError`. -/
def mindmap_generate_wrap (e : PyExc) : Except PyExc VisualizationResult :=
  match e with
  | .pydanticValidationError m =>
      .error (.valueError ("LLM generated invalid JSON for Mindmap: " ++ m))
  | .jsonDecodeError m => .error (.valueError ("Failed to parse JSON from LLM response: " ++ m))
  | e => .error (.runtimeError ("Mindmap generation failed: " ++ excStr e))

/-- `llm_service.generate_visualization`'s `try/except`: `ValueError`
(and its subclasses) is re-raised as `ValueError`, any other exception as
`RuntimeError` mentioning the visualization type. -/
def llm_service_wrap (visualization_type : String) (body : Except PyExc VisualizationResult) :
    Except PyExc VisualizationResult :=
  match body with
  | .ok r => .ok r
  | .error e =>
      if isValueErrorClass e then
        .error (.valueError ("Visualization error: " ++ excStr e))
      else
        .error (.runtimeError ("Failed to generate visualization of type "
          ++ visualization_type ++ ": " ++ excStr e))

/-- The tail of `MindmapStrategy.generate` once a `MindmapNode` has been
parsed from the LLM response: render, validate (a failure raises
`ValueError` which the outer `except Exception` re-raises as
`RuntimeError`), then build the result whose metadata is computed over
the full unpruned tree. -/
def mindmap_generate_from_parsed (t : MindmapNode) (options : VisualizationOptions) :
    Except PyExc VisualizationResult :=
  let markdown_content := json_to_markdown t options.max_depth 0
  if !mindmap_validate_content markdown_content then
    .error (.runtimeError "Mindmap generation failed: Generated mindmap markdown content is invalid.")
  else
    .ok { type := "mindmap"
          content := markdown_content
          metadata := [("total_nodes", (count_nodes t : Int)),
                       ("actual_depth", (calculate_depth t 1 : Int)),
                       ("requested_max_depth", options.max_depth)] }

/-! ### Job lifecycle loop (`_run_visualization_job`, main.py) -/

/-- Whether `pat` is an initial segment of `hay`. -/
def leadEq : List Char → List Char → Bool
  | [], _ => true
  | _ :: _, [] => false
  | a :: as, b :: bs => a == b && leadEq as bs

/-- Whether `pat` occurs inside `hay` (Python `pat in hay`). -/
def charsContain (hay pat : List Char) : Bool :=
  leadEq pat hay ||
    match hay with
    | [] => false
    | _ :: rest => charsContain rest pat

/-- Python substring test `pat in hay` on strings. -/
def strContains (hay pat : String) : Bool := charsContain hay.data pat.data

/-- Status-code recovery in the `except genai_errors.ServerError` handler of
`_run_visualization_job`: use the structured `status_code` when present,
otherwise classify by substring match on the lowercased error text
(503/unavailable/overloaded give 503; 429/too many requests/rate limit
give 429). -/
def classify_server_error (status_code : Option Nat) (text : String) : Option Nat :=
  match status_code with
  | some c => some c
  | none =>
      let t := strLower text
      if strContains t "503" || strContains t "unavailable" || strContains t "overloaded" then
        some 503
      else if strContains t "429" || strContains t "too many requests" || strContains t "rate limit" then
        some 429
      else
        none

/-- `max_attempts` in `_run_visualization_job`. -/
def max_attempts : Nat := 3

/-- `base_delay_seconds = 1.5`: exact as a rational (1.5 and its doublings
are exactly representable floats, so ℚ models the Python arithmetic
without error). -/
def base_delay_seconds : ℚ := 3 / 2

/-- The backoff delay `base_delay_seconds * (2 ** (attempt - 1))`. -/
def backoff_delay (attempt : Nat) : ℚ := base_delay_seconds * 2 ^ (attempt - 1)

/-- The delay in tenths of a second, used to render Python's `f"{delay:.1f}"`
exactly for the delays this loop produces (15, 30 tenths, ...). -/
def delay_tenths (attempt : Nat) : Nat := 15 * 2 ^ (attempt - 1)

/-- `f"{delay:.1f}"` for a delay given in tenths of a second. -/
def fmt_tenths (n : Nat) : String := toString (n / 10) ++ "." ++ toString (n % 10)

/-- The transient retry message stored on the job before sleeping. -/
def transient_error_message (code : Nat) (attempt : Nat) : String :=
  "Transient Gemini error (status=" ++ toString code ++ "). Retrying in "
    ++ fmt_tenths (delay_tenths attempt) ++ "s."

/-- The user-facing message stored when a `ServerError` is not retried. -/
def final_server_error_message (code : Option Nat) (text : String) : String :=
  if code = some 503 then
    "The Gemini model is still overloaded after multiple attempts. Please wait a bit and try again."
  else if code = some 429 then
    "Gemini rate limit was hit several times in a row. Please slow down and try again shortly."
  else
    "Gemini returned an error while generating the diagram: " ++ text

/-- Outcome of one `await generate_visualization(...)` call: a result, or a
raised exception. -/
abbrev GenOutcome := Except PyExc VisualizationResult

/-- Observable record of one run of `_run_visualization_job`: every store
write (`_jobs[job_id] = job`) in order, the number of `generate` calls,
the backoff delays slept, and the job record as the loop leaves it. -/
structure RunTrace where
  snapshots : List Job
  generateCalls : Nat
  sleeps : List ℚ
  final : Job
deriving DecidableEq, Repr

/-- The `for attempt in range(1, max_attempts + 1)` loop of
`_run_visualization_job`.  `outcomes k` is what the `(k+1)`-th
`generate_visualization` call does.  `fuel` is a structural bound on the
remaining iterations; `run_visualization_job` below supplies
`max_attempts`, which is exact since every iteration either returns or
continues with `attempt + 1` (and continuing requires `attempt < max_attempts`).
The `except` ladder is dispatched in source order: `(ValueError, RuntimeError)`,
then `genai_errors.ServerError`, then `Exception`. -/
def run_from (outcomes : Nat → GenOutcome) : Nat → Nat → Job → RunTrace
  | 0, _, job => ⟨[], 0, [], job⟩
  | fuel + 1, attempt, job =>
      if attempt > max_attempts then ⟨[], 0, [], job⟩
      else
        let j1 := { job with status := .running, attempts := attempt,
                             updated_at := job.updated_at + 1 }
        match outcomes (attempt - 1) with
        | .ok r =>
            let j2 := { j1 with content := some r.content, metadata := r.metadata,
                                status := .succeeded, updated_at := j1.updated_at + 1 }
            ⟨[j1, j2], 1, [], j2⟩
        | .error e =>
            if isValueErrorClass e || isRuntimeErrorClass e then
              let j2 := { j1 with status := .failed, error := some (excStr e),
                                  updated_at := j1.updated_at + 1 }
              ⟨[j1, j2], 1, [], j2⟩
            else
              match e with
              | .serverError sc text =>
                  let code := classify_server_error sc text
                  if (code = some 503 ∨ code = some 429) ∧ attempt < max_attempts then
                    let j2 := { j1 with status := .pending,
                                        error := some (transient_error_message (code.getD 0) attempt),
                                        updated_at := j1.updated_at + 1 }
                    let rest := run_from outcomes fuel (attempt + 1) j2
                    ⟨j1 :: j2 :: rest.snapshots, 1 + rest.generateCalls,
                      backoff_delay attempt :: rest.sleeps, rest.final⟩
                  else
                    let j2 := { j1 with status := .failed,
                                        error := some (final_server_error_message code text),
                                        updated_at := j1.updated_at + 1 }
                    ⟨[j1, j2], 1, [], j2⟩
              | e =>
                  let j2 := { j1 with status := .failed,
                                      error := some ("Unexpected error: " ++ excStr e),
                                      updated_at := j1.updated_at + 1 }
                  ⟨[j1, j2], 1, [], j2⟩

/-- `_run_visualization_job` applied to a job record already fetched from
the store (the function returns silently when the record is absent). -/
def run_job (job : Job) (outcomes : Nat → GenOutcome) : RunTrace :=
  run_from outcomes max_attempts 1 job

/-- `_run_visualization_job` including the initial `_jobs.get(job_id)`
guard. -/
def run_visualization_job (store : Store) (job_id : String) (outcomes : Nat → GenOutcome) :
    Option RunTrace :=
  match store_get store job_id with
  | none => none
  | some job => some (run_job job outcomes)

/-! ### Helper lemmas: store and registry -/

/-- Deleting a key removes it from lookup. -/
theorem store_get_store_del (s : Store) (k : String) :
    store_get (store_del s k) k = none := by
  induction s with
  | nil => rfl
  | cons p rest ih =>
      obtain ⟨k1, v⟩ := p
      by_cases h : k1 = k
      · simp [store_del, h, ih]
      · simp [store_del, store_get, h, ih]

/-- The registered strategy keys are exactly the supported type names. -/
theorem get_supported_types_eq : get_supported_types = ["flowchart", "mindmap"] := rfl

/-- A key outside the supported set is absent from the registry dict. -/
theorem assoc_get_none_of_not_supported (key : String)
    (h : key ∉ get_supported_types) : assoc_get registered_strategies key = none := by
  rw [get_supported_types_eq] at h
  simp only [List.mem_cons, List.mem_singleton, not_or] at h
  have h1 : "flowchart" ≠ key := fun he => h.1 he.symm
  have h2 : "mindmap" ≠ key := fun he => h.2.1 he.symm
  simp [registered_strategies, assoc_get, h1, h2]

/-- A type name whose lowercased form is unsupported makes the endpoint
membership test false. -/
theorem contains_false_of_not_supported (ty : String)
    (h : strLower ty ∉ get_supported_visualization_types) :
    get_supported_visualization_types.contains (strLower ty) = false := by
  by_contra hc
  rw [Bool.not_eq_false] at hc
  exact h (List.elem_iff.mp hc)

/-- C5 counterexample: `"FLOWCHART"` is not in the registry's supported set
(`get_supported_types() == ["flowchart", "mindmap"]`), yet `create_strategy`
does not raise for it (both the factory and the endpoint lowercase the name
before the lookup), and the `visualize` endpoint accepts the request and
stores a job record.  This refutes the claim as stated, which asserts that
every type-name string outside the supported set is rejected. -/
theorem C5_uppercase_type_is_accepted :
    "FLOWCHART" ∉ get_supported_types ∧
    create_strategy "FLOWCHART" = .ok .flowchart ∧
    (visualize [] "FLOWCHART" "job-1" 0).1 = .ok ("job-1", .pending) ∧
    (visualize [] "FLOWCHART" "job-1" 0).2 =
      [("job-1", create_job_record "job-1" "flowchart" 0)] := by
  exact ⟨by decide, by decide, by decide, by decide⟩

/-- C5 amended: for every type-name string whose *lowercased* form is not in
the registry's supported set, `create_strategy` raises and the job-creation
endpoint rejects the request with HTTP 400 while leaving the job store
unchanged. -/
theorem C5_unsupported_type_rejected_before_store (ty : String) (store : Store)
    (job_id : String) (now : Nat)
    (h : strLower ty ∉ get_supported_types) :
    exceptIsOk (create_strategy ty) = false ∧
    exceptIsOk (visualize store ty job_id now).1 = false ∧
    (visualize store ty job_id now).2 = store := by
  have hget := assoc_get_none_of_not_supported (strLower ty) h
  have hmem : strLower ty ∉ get_supported_visualization_types := h
  refine ⟨?_, ?_, ?_⟩
  · simp [create_strategy, hget, exceptIsOk]
  · simp [visualize, hmem, exceptIsOk]
  · simp [visualize, hmem]

/-- C5 witness: the amended theorem applied to the concrete unsupported
type name `"triangle"`. -/
theorem C5_unsupported_type_rejected_before_store_witness :
    exceptIsOk (create_strategy "triangle") = false ∧
    exceptIsOk (visualize [] "triangle" "job-1" 0).1 = false ∧
    (visualize [] "triangle" "job-1" 0).2 = [] :=
  C5_unsupported_type_rejected_before_store "triangle" [] "job-1" 0 (by decide)

/-- C7: a stored job whose `expires_at` has passed is reported not-found by
the poll endpoint, the poll removes the record from the store, and a second
poll (at the same or any later instant) is also not-found and leaves the
store unchanged: the record is purged, not resurrected. -/
theorem C7_expired_job_purged (store : Store) (job_id : String) (job : Job)
    (now now2 : Nat) (hget : store_get store job_id = some job)
    (hexp : job.expires_at < now) :
    (get_visualization_job store now job_id).1 =
      .notFound ("Visualization job " ++ job_id ++ " has expired and was removed.") ∧
    store_get (get_visualization_job store now job_id).2 job_id = none ∧
    (get_visualization_job (get_visualization_job store now job_id).2 now2 job_id).1 =
      .notFound ("Visualization job " ++ job_id ++ " not found or expired.") ∧
    (get_visualization_job (get_visualization_job store now job_id).2 now2 job_id).2 =
      (get_visualization_job store now job_id).2 := by
  have h2 : (get_visualization_job store now job_id).2 = store_del store job_id := by
    simp [get_visualization_job, hget, hexp]
  have hnone : store_get (store_del store job_id) job_id = none :=
    store_get_store_del store job_id
  refine ⟨?_, ?_, ?_, ?_⟩
  · simp [get_visualization_job, hget, hexp]
  · rw [h2]; exact hnone
  · rw [h2]; simp [get_visualization_job, hnone]
  · rw [h2]; simp [get_visualization_job, hnone]

/-- C7 witness: a concrete job stored at time 100 (so expiring at 3700) and
polled at times 5000 and 6000. -/
theorem C7_expired_job_purged_witness :
    (get_visualization_job [("id1", create_job_record "id1" "flowchart" 100)] 5000 "id1").1 =
      .notFound ("Visualization job " ++ "id1" ++ " has expired and was removed.") ∧
    store_get
      (get_visualization_job [("id1", create_job_record "id1" "flowchart" 100)] 5000 "id1").2
      "id1" = none ∧
    (get_visualization_job
      (get_visualization_job [("id1", create_job_record "id1" "flowchart" 100)] 5000 "id1").2
      6000 "id1").1 =
      .notFound ("Visualization job " ++ "id1" ++ " not found or expired.") ∧
    (get_visualization_job
      (get_visualization_job [("id1", create_job_record "id1" "flowchart" 100)] 5000 "id1").2
      6000 "id1").2 =
      (get_visualization_job [("id1", create_job_record "id1" "flowchart" 100)] 5000 "id1").2 :=
  C7_expired_job_purged [("id1", create_job_record "id1" "flowchart" 100)] "id1"
    (create_job_record "id1" "flowchart" 100) 5000 6000 (by decide) (by decide)

/-- The attempt loop makes at most `fuel` calls to `generate_visualization`. -/
theorem run_from_calls_le (o : Nat → GenOutcome) (fuel : Nat) :
    ∀ (attempt : Nat) (job : Job), (run_from o fuel attempt job).generateCalls ≤ fuel := by
  induction fuel with
  | zero => intro attempt job; simp [run_from]
  | succ fuel ih =>
      intro attempt job
      rw [run_from]
      by_cases hgt : attempt > max_attempts
      · simp [hgt]
      · rw [if_neg hgt]
        rcases ho : o (attempt - 1) with e | r
        · dsimp only
          by_cases hv : (isValueErrorClass e || isRuntimeErrorClass e) = true
          · simp [hv]
          · rw [if_neg hv]
            rcases e with m | m | m | m | ⟨sc, text⟩ | m
            · exact absurd rfl hv
            · exact absurd rfl hv
            · exact absurd rfl hv
            · exact absurd rfl hv
            · dsimp only
              by_cases hretry : (classify_server_error sc text = some 503 ∨
                  classify_server_error sc text = some 429) ∧ attempt < max_attempts
              · rw [if_pos hretry]
                dsimp only
                exact le_trans (Nat.add_le_add_left (ih (attempt + 1) _) 1) (by omega)
              · rw [if_neg hretry]; simp
            · simp
        · dsimp only; simp

/-- Every store write of the attempt loop carries `attempts ≤ max_attempts`. -/
theorem run_from_snapshots_attempts (o : Nat → GenOutcome) (fuel : Nat) :
    ∀ (attempt : Nat) (job : Job) (s : Job),
      s ∈ (run_from o fuel attempt job).snapshots → s.attempts ≤ max_attempts := by
  induction fuel with
  | zero => intro attempt job s hs; simp [run_from] at hs
  | succ fuel ih =>
      intro attempt job s
      rw [run_from]
      by_cases hgt : attempt > max_attempts
      · simp [hgt]
      · rw [if_neg hgt]
        rcases ho : o (attempt - 1) with e | r
        · dsimp only
          by_cases hv : (isValueErrorClass e || isRuntimeErrorClass e) = true
          · rw [if_pos hv]
            intro hs
            simp only [List.mem_cons, List.not_mem_nil, or_false] at hs
            rcases hs with rfl | rfl <;> simp <;> omega
          · rw [if_neg hv]
            rcases e with m | m | m | m | ⟨sc, text⟩ | m
            · exact absurd rfl hv
            · exact absurd rfl hv
            · exact absurd rfl hv
            · exact absurd rfl hv
            · dsimp only
              by_cases hretry : (classify_server_error sc text = some 503 ∨
                  classify_server_error sc text = some 429) ∧ attempt < max_attempts
              · rw [if_pos hretry]
                intro hs
                simp only [List.mem_cons] at hs
                rcases hs with rfl | rfl | hs
                · simp; omega
                · simp; omega
                · exact ih (attempt + 1) _ s hs
              · rw [if_neg hretry]
                intro hs
                simp only [List.mem_cons, List.not_mem_nil, or_false] at hs
                rcases hs with rfl | rfl <;> simp <;> omega
            · intro hs
              simp only [List.mem_cons, List.not_mem_nil, or_false] at hs
              rcases hs with rfl | rfl <;> simp <;> omega
        · dsimp only
          intro hs
          simp only [List.mem_cons, List.not_mem_nil, or_false] at hs
          rcases hs with rfl | rfl <;> simp <;> omega

/-- The final job record keeps `attempts ≤ max_attempts` when it started so. -/
theorem run_from_final_attempts (o : Nat → GenOutcome) (fuel : Nat) :
    ∀ (attempt : Nat) (job : Job), job.attempts ≤ max_attempts →
      (run_from o fuel attempt job).final.attempts ≤ max_attempts := by
  induction fuel with
  | zero => intro attempt job hj; simpa [run_from] using hj
  | succ fuel ih =>
      intro attempt job hj
      rw [run_from]
      by_cases hgt : attempt > max_attempts
      · simpa [hgt] using hj
      · rw [if_neg hgt]
        rcases ho : o (attempt - 1) with e | r
        · dsimp only
          by_cases hv : (isValueErrorClass e || isRuntimeErrorClass e) = true
          · rw [if_pos hv]; dsimp only; omega
          · rw [if_neg hv]
            rcases e with m | m | m | m | ⟨sc, text⟩ | m
            · exact absurd rfl hv
            · exact absurd rfl hv
            · exact absurd rfl hv
            · exact absurd rfl hv
            · dsimp only
              by_cases hretry : (classify_server_error sc text = some 503 ∨
                  classify_server_error sc text = some 429) ∧ attempt < max_attempts
              · rw [if_pos hretry]
                dsimp only
                exact ih (attempt + 1) _ (by dsimp only; omega)
              · rw [if_neg hretry]; dsimp only; omega
            · dsimp only; omega
        · dsimp only; omega

/-- The backoff delays slept by the loop starting at `attempt` are
`base_delay_seconds * 2 ^ (attempt - 1)`, doubling on each consecutive
retry. -/
theorem run_from_sleeps_shape (o : Nat → GenOutcome) (fuel : Nat) :
    ∀ (attempt : Nat) (job : Job), 1 ≤ attempt →
      ∃ n ≤ fuel, (run_from o fuel attempt job).sleeps =
        (List.range n).map (fun i => base_delay_seconds * 2 ^ (attempt - 1 + i)) := by
  induction fuel with
  | zero =>
      intro attempt job _
      exact ⟨0, le_refl 0, by simp [run_from]⟩
  | succ fuel ih =>
      intro attempt job h1
      rw [run_from]
      by_cases hgt : attempt > max_attempts
      · exact ⟨0, by omega, by simp [hgt]⟩
      · rw [if_neg hgt]
        rcases ho : o (attempt - 1) with e | r
        · dsimp only
          by_cases hv : (isValueErrorClass e || isRuntimeErrorClass e) = true
          · rw [if_pos hv]
            exact ⟨0, by omega, by simp⟩
          · rw [if_neg hv]
            rcases e with m | m | m | m | ⟨sc, text⟩ | m
            · exact absurd rfl hv
            · exact absurd rfl hv
            · exact absurd rfl hv
            · exact absurd rfl hv
            · dsimp only
              by_cases hretry : (classify_server_error sc text = some 503 ∨
                  classify_server_error sc text = some 429) ∧ attempt < max_attempts
              · rw [if_pos hretry]
                obtain ⟨n, hn, hs⟩ := ih (attempt + 1) _ (by omega)
                refine ⟨n + 1, by omega, ?_⟩
                dsimp only
                rw [hs]
                rw [List.range_succ_eq_map, List.map_cons, List.map_map]
                congr 1
                simp only [List.map_inj_left]
                intro a _
                simp only [Function.comp_apply]
                have he : attempt + 1 - 1 + a = attempt - 1 + Nat.succ a := by omega
                rw [he]
              · rw [if_neg hretry]
                exact ⟨0, by omega, by simp⟩
            · exact ⟨0, by omega, by simp⟩
        · dsimp only
          exact ⟨0, by omega, by simp⟩

/-- C2: for every job record created by the endpoint and every sequence of
generate outcomes, the attempt loop invokes `generate` at most 3 times, the
record starts with `attempts = 0`, every store-visible state has
`attempts ≤ 3`, and the final state has `attempts ≤ 3`. -/
theorem C2_attempt_bound (job_id vtype : String) (now : Nat) (o : Nat → GenOutcome) :
    (run_job (create_job_record job_id vtype now) o).generateCalls ≤ 3 ∧
    (create_job_record job_id vtype now).attempts ≤ 3 ∧
    ((run_job (create_job_record job_id vtype now) o).snapshots.all
      (fun s => decide (s.attempts ≤ 3))) = true ∧
    (run_job (create_job_record job_id vtype now) o).final.attempts ≤ 3 := by
  refine ⟨run_from_calls_le o 3 1 _, by simp [create_job_record], ?_, ?_⟩
  · rw [List.all_eq_true]
    intro s hs
    rw [decide_eq_true_eq]
    exact run_from_snapshots_attempts o 3 1 _ s hs
  · exact run_from_final_attempts o 3 1 _ (by simp [create_job_record])

/-- C3: when the `generate_visualization` call of any reachable attempt
raises a `ValueError` (the class carrying validation-shaped strategy
failures) or a `RuntimeError`, the loop stores `failed` with that
exception's message on that same attempt, makes exactly one `generate`
call from that point on (never retries), and sleeps no backoff delay. -/
theorem C3_validation_error_fails_without_retry (job : Job) (o : Nat → GenOutcome)
    (fuel attempt : Nat) (e : PyExc)
    (hle : attempt ≤ max_attempts)
    (ho : o (attempt - 1) = .error e)
    (he : (isValueErrorClass e || isRuntimeErrorClass e) = true) :
    (run_from o (fuel + 1) attempt job).generateCalls = 1 ∧
    (run_from o (fuel + 1) attempt job).final.status = .failed ∧
    (run_from o (fuel + 1) attempt job).final.error = some (excStr e) ∧
    (run_from o (fuel + 1) attempt job).final.attempts = attempt ∧
    (run_from o (fuel + 1) attempt job).sleeps = [] := by
  rw [run_from, if_neg (by omega : ¬ attempt > max_attempts), ho]
  dsimp only
  rw [if_pos he]
  exact ⟨rfl, rfl, rfl, rfl, rfl⟩

/-- C3 witness: a `ValueError` outcome on the first attempt of a fresh job. -/
theorem C3_validation_error_fails_without_retry_witness :
    (run_from (fun _ => .error (.valueError "Visualization error: bad json")) (2 + 1) 1
      (create_job_record "w3" "mindmap" 0)).generateCalls = 1 ∧
    (run_from (fun _ => .error (.valueError "Visualization error: bad json")) (2 + 1) 1
      (create_job_record "w3" "mindmap" 0)).final.status = .failed ∧
    (run_from (fun _ => .error (.valueError "Visualization error: bad json")) (2 + 1) 1
      (create_job_record "w3" "mindmap" 0)).final.error =
        some (excStr (.valueError "Visualization error: bad json")) ∧
    (run_from (fun _ => .error (.valueError "Visualization error: bad json")) (2 + 1) 1
      (create_job_record "w3" "mindmap" 0)).final.attempts = 1 ∧
    (run_from (fun _ => .error (.valueError "Visualization error: bad json")) (2 + 1) 1
      (create_job_record "w3" "mindmap" 0)).sleeps = [] :=
  C3_validation_error_fails_without_retry (create_job_record "w3" "mindmap" 0)
    (fun _ => .error (.valueError "Visualization error: bad json")) 2 1
    (.valueError "Visualization error: bad json") (by decide) rfl (by decide)

/-- Every exception `generate_visualization` can raise is a `ValueError`
or a `RuntimeError`: its `try/except` re-raises `ValueError` (and
subclasses) as `ValueError` and everything else as `RuntimeError`, so no
raw `genai` `ServerError` ever escapes it. -/
theorem llm_service_wrap_error_class (visualization_type : String)
    (body : Except PyExc VisualizationResult) (e : PyExc)
    (h : llm_service_wrap visualization_type body = .error e) :
    (isValueErrorClass e || isRuntimeErrorClass e) = true := by
  rcases body with b | r
  · rw [llm_service_wrap] at h
    by_cases hv : isValueErrorClass b = true
    · rw [if_pos hv] at h
      rw [← Except.error.inj h]
      rfl
    · rw [if_neg hv] at h
      rw [← Except.error.inj h]
      rfl
  · simp [llm_service_wrap] at h

/-- For outcome sequences confined to what `generate_visualization` can
actually produce (success, `ValueError`, `RuntimeError`), the loop settles
on its first attempt: every store write satisfies `error` present iff
`failed`, no write is `pending` again, no backoff is slept, and a
succeeded final state keeps the (absent) initial error. -/
theorem run_from_reachable_first (o : Nat → GenOutcome) (fuel : Nat) (job : Job)
    (hreach : ∀ e, o 0 = .error e → (isValueErrorClass e || isRuntimeErrorClass e) = true)
    (hjob : job.error = none) :
    (∀ s ∈ (run_from o (fuel + 1) 1 job).snapshots,
      (s.error ≠ none ↔ s.status = .failed)) ∧
    ((run_from o (fuel + 1) 1 job).final.error ≠ none ↔
      (run_from o (fuel + 1) 1 job).final.status = .failed) ∧
    (∀ s ∈ (run_from o (fuel + 1) 1 job).snapshots, s.status ≠ .pending) ∧
    (run_from o (fuel + 1) 1 job).sleeps = [] ∧
    ((run_from o (fuel + 1) 1 job).final.status = .succeeded →
      (run_from o (fuel + 1) 1 job).final.error = none) := by
  rw [run_from, if_neg (by decide : ¬ 1 > max_attempts)]
  rcases ho : o (1 - 1) with e | r
  · have hv := hreach e ho
    dsimp only
    rw [if_pos hv]
    refine ⟨?_, by simp, ?_, rfl, by simp⟩
    · intro s hs
      simp only [List.mem_cons, List.not_mem_nil, or_false] at hs
      rcases hs with rfl | rfl
      · simp [hjob]
      · simp
    · intro s hs
      simp only [List.mem_cons, List.not_mem_nil, or_false] at hs
      rcases hs with rfl | rfl
      · simp
      · simp
  · dsimp only
    refine ⟨?_, by simp [hjob], ?_, rfl, by simp [hjob]⟩
    · intro s hs
      simp only [List.mem_cons, List.not_mem_nil, or_false] at hs
      rcases hs with rfl | rfl
      · simp [hjob]
      · simp [hjob]
    · intro s hs
      simp only [List.mem_cons, List.not_mem_nil, or_false] at hs
      rcases hs with rfl | rfl
      · simp
      · simp

/-- C4: for every job record created by the endpoint and every outcome
sequence `generate_visualization` can actually produce (its wrapper only
raises `ValueError`/`RuntimeError`, see `llm_service_wrap_error_class`),
every state in the job's lifecycle — the initial record, every store
write, and the final state — has `error` non-empty exactly when its status
is `failed`; no state is ever mid-retry (the loop never re-enters
`pending` and never sleeps), so the claimed iff holds with its mid-retry
disjunct vacuous, and a job that reaches `succeeded` has no error set. -/
theorem C4_error_iff_failed (job_id vtype : String) (now : Nat) (o : Nat → GenOutcome)
    (hreach : ∀ k e, o k = .error e →
      (isValueErrorClass e || isRuntimeErrorClass e) = true) :
    ((create_job_record job_id vtype now).error ≠ none ↔
      (create_job_record job_id vtype now).status = .failed) ∧
    (∀ s ∈ (run_job (create_job_record job_id vtype now) o).snapshots,
      (s.error ≠ none ↔ s.status = .failed)) ∧
    ((run_job (create_job_record job_id vtype now) o).final.error ≠ none ↔
      (run_job (create_job_record job_id vtype now) o).final.status = .failed) ∧
    (∀ s ∈ (run_job (create_job_record job_id vtype now) o).snapshots,
      s.status ≠ .pending) ∧
    (run_job (create_job_record job_id vtype now) o).sleeps = [] ∧
    ((run_job (create_job_record job_id vtype now) o).final.status = .succeeded →
      (run_job (create_job_record job_id vtype now) o).final.error = none) := by
  have h := run_from_reachable_first o 2 (create_job_record job_id vtype now)
    (fun e he => hreach 0 e he) rfl
  exact ⟨by simp [create_job_record], h.1, h.2.1, h.2.2.1, h.2.2.2.1, h.2.2.2.2⟩

/-- C4 witness: a run whose outcomes come from the composed mindmap
pipeline hitting a provider 503 (reaching the loop as `RuntimeError`), and
a clean success run, discharging both hypothesis shapes. -/
theorem C4_error_iff_failed_witness :
    ((run_job (create_job_record "w4" "mindmap" 0) (fun _ => llm_service_wrap "mindmap"
        (mindmap_generate_wrap (.serverError none "503 overloaded")))).final.error ≠ none ↔
      (run_job (create_job_record "w4" "mindmap" 0) (fun _ => llm_service_wrap "mindmap"
        (mindmap_generate_wrap (.serverError none "503 overloaded")))).final.status =
        .failed) ∧
    (run_job (create_job_record "w4b" "flowchart" 0)
      (fun _ => .ok ⟨"flowchart", "flowchart TD", []⟩)).final.error = none :=
  ⟨(C4_error_iff_failed "w4" "mindmap" 0
      (fun _ => llm_service_wrap "mindmap"
        (mindmap_generate_wrap (.serverError none "503 overloaded")))
      (fun _ e he => llm_service_wrap_error_class "mindmap"
        (mindmap_generate_wrap (.serverError none "503 overloaded")) e he)).2.2.1,
   (C4_error_iff_failed "w4b" "flowchart" 0
      (fun _ => .ok ⟨"flowchart", "flowchart TD", []⟩)
      (fun _ e he => Except.noConfusion he)).2.2.2.2.2 (by decide)⟩

/-- C6: the delays slept by a job's attempt loop are exactly
`base_delay_seconds * 2 ^ k` for consecutive `k = 0, 1, ...` — i.e. the
delay after the k-th retryable failure is `1.5 * 2 ^ (k-1)` seconds — so
successive retry delays strictly increase; the concrete all-503 run sleeps
1.5s then 3.0s. -/
theorem C6_backoff_growth (job_id vtype : String) (now : Nat) (o : Nat → GenOutcome) :
    (run_job (create_job_record job_id vtype now) o).sleeps =
      (List.range (run_job (create_job_record job_id vtype now) o).sleeps.length).map
        (fun i => base_delay_seconds * 2 ^ i) ∧
    (∀ i a b, (run_job (create_job_record job_id vtype now) o).sleeps.get? i = some a →
      (run_job (create_job_record job_id vtype now) o).sleeps.get? (i + 1) = some b →
      a < b) ∧
    (run_job (create_job_record "w6" "flowchart" 0)
      (fun _ => .error (.serverError (some 503) "overloaded"))).sleeps = [3 / 2, 3] := by
  obtain ⟨n, hn, hs⟩ := run_from_sleeps_shape o 3 1 (create_job_record job_id vtype now)
    (le_refl 1)
  have hsimp : (run_job (create_job_record job_id vtype now) o).sleeps =
      (List.range n).map (fun i => base_delay_seconds * 2 ^ i) := by
    have h2 : (run_job (create_job_record job_id vtype now) o).sleeps =
        (run_from o 3 1 (create_job_record job_id vtype now)).sleeps := rfl
    rw [h2, hs]
    simp
  refine ⟨?_, ?_, ?_⟩
  · rw [hsimp, List.length_map, List.length_range]
  · intro i a b ha hb
    rw [hsimp] at ha hb
    rw [List.get?_map] at ha hb
    rcases Option.map_eq_some'.mp ha with ⟨v, hv, hva⟩
    rcases Option.map_eq_some'.mp hb with ⟨w, hw, hwb⟩
    have hv2 : v = i := by
      obtain ⟨hlt, hval⟩ := List.get?_eq_some.mp hv
      simpa using hval.symm
    have hw2 : w = i + 1 := by
      obtain ⟨hlt, hval⟩ := List.get?_eq_some.mp hw
      simpa using hval.symm
    rw [hv2] at hva
    rw [hw2] at hwb
    rw [← hva, ← hwb]
    show base_delay_seconds * 2 ^ i < base_delay_seconds * 2 ^ (i + 1)
    have hb0 : (0 : ℚ) < base_delay_seconds := by
      norm_num [base_delay_seconds]
    have hpos : (0 : ℚ) < base_delay_seconds * 2 ^ i :=
      mul_pos hb0 (by positivity)
    calc base_delay_seconds * 2 ^ i
        < 2 * (base_delay_seconds * 2 ^ i) := by linarith
      _ = base_delay_seconds * 2 ^ (i + 1) := by ring
  · show (run_from (fun _ => .error (.serverError (some 503) "overloaded")) 3 1
      (create_job_record "w6" "flowchart" 0)).sleeps = [3 / 2, 3]
    norm_num [run_from, classify_server_error, backoff_delay, base_delay_seconds,
      isValueErrorClass, isRuntimeErrorClass, max_attempts]

/-- C6 witness: the two delays of the concrete all-503 run, 1.5s then 3.0s,
satisfy the strict increase. -/
theorem C6_backoff_growth_witness : (3 / 2 : ℚ) < 3 := by
  have h := (C6_backoff_growth "w6" "flowchart" 0
    (fun _ => .error (.serverError (some 503) "overloaded"))).2.1 0 (3 / 2) 3
  have h3 := (C6_backoff_growth "w6" "flowchart" 0
    (fun _ => .error (.serverError (some 503) "overloaded"))).2.2
  apply h
  · rw [show (run_job (create_job_record "w6" "flowchart" 0)
      (fun _ => .error (.serverError (some 503) "overloaded"))).sleeps = [3 / 2, 3] from h3]
    rfl
  · rw [show (run_job (create_job_record "w6" "flowchart" 0)
      (fun _ => .error (.serverError (some 503) "overloaded"))).sleeps = [3 / 2, 3] from h3]
    rfl

/-- C1 (code bug evidence): the provider's 503-overload `ServerError` is
classifiable as transient by `_run_visualization_job`'s own heuristic, but
`FlowchartStrategy.generate`'s `except Exception` re-raises it as
`RuntimeError` (and `generate_visualization` wraps it again), so the job
loop's `(ValueError, RuntimeError)` handler marks the job `failed` on the
first attempt: one generate call, no backoff sleep.  Had the raw
`ServerError` reached the loop (as the retry branch assumes), the same
error would have been retried three times with backoff, as the last three
conjuncts show. -/
theorem C1_transient_error_evidence :
    classify_server_error none
      "503 UNAVAILABLE: The model is overloaded. Please try again later." = some 503 ∧
    llm_service_wrap "flowchart" (flowchart_generate_wrap (.serverError none
      "503 UNAVAILABLE: The model is overloaded. Please try again later.")) =
      .error (.runtimeError
        "Failed to generate visualization of type flowchart: Flowchart generation failed: 503 UNAVAILABLE: The model is overloaded. Please try again later.") ∧
    (run_job (create_job_record "job-1" "flowchart" 0) (fun _ =>
      llm_service_wrap "flowchart" (flowchart_generate_wrap (.serverError none
        "503 UNAVAILABLE: The model is overloaded. Please try again later.")))).generateCalls = 1 ∧
    (run_job (create_job_record "job-1" "flowchart" 0) (fun _ =>
      llm_service_wrap "flowchart" (flowchart_generate_wrap (.serverError none
        "503 UNAVAILABLE: The model is overloaded. Please try again later.")))).final.status = .failed ∧
    (run_job (create_job_record "job-1" "flowchart" 0) (fun _ =>
      llm_service_wrap "flowchart" (flowchart_generate_wrap (.serverError none
        "503 UNAVAILABLE: The model is overloaded. Please try again later.")))).final.attempts = 1 ∧
    (run_job (create_job_record "job-1" "flowchart" 0) (fun _ =>
      llm_service_wrap "flowchart" (flowchart_generate_wrap (.serverError none
        "503 UNAVAILABLE: The model is overloaded. Please try again later.")))).sleeps = [] ∧
    (run_job (create_job_record "job-1" "flowchart" 0) (fun _ => .error (.serverError none
      "503 UNAVAILABLE: The model is overloaded. Please try again later."))).generateCalls = 3 ∧
    (run_job (create_job_record "job-1" "flowchart" 0) (fun _ => .error (.serverError none
      "503 UNAVAILABLE: The model is overloaded. Please try again later."))).final.status = .failed ∧
    (run_job (create_job_record "job-1" "flowchart" 0) (fun _ => .error (.serverError none
      "503 UNAVAILABLE: The model is overloaded. Please try again later."))).final.error =
      some "The Gemini model is still overloaded after multiple attempts. Please wait a bit and try again." := by
  refine ⟨by decide, by decide, by decide, by decide, by decide, by decide, by decide,
    by decide, by decide⟩

/-! ### Helper lemmas: strings and the mindmap tree -/

/-- Rebuilding a string from its characters is the identity. -/
theorem strMk_data (s : String) : String.mk s.data = s := by
  cases s
  rfl

/-- Induction over `MindmapNode`: to prove `P` everywhere it suffices to
prove it for a node assuming it for every child. -/
theorem mindmap_induction (P : MindmapNode → Prop)
    (h : ∀ t cs, (∀ c ∈ cs, P c) → P (.node t cs)) : ∀ n, P n := by
  have key : ∀ (k : Nat) (n : MindmapNode), sizeOf n ≤ k → P n := by
    intro k
    induction k with
    | zero =>
        intro n hn
        cases n with
        | node t cs =>
            simp only [MindmapNode.node.sizeOf_spec] at hn
            omega
    | succ k ih =>
        intro n hn
        cases n with
        | node t cs =>
            apply h
            intro c hc
            apply ih
            have h1 : sizeOf c < sizeOf cs := List.sizeOf_lt_of_mem hc
            simp only [MindmapNode.node.sizeOf_spec] at hn
            omega
  intro n
  exact key (sizeOf n) n le_rfl

/-- `joinNL` on a cons with a nonempty tail. -/
theorem joinNL_cons (s : String) (l : List String) (h : l ≠ []) :
    joinNL (s :: l) = s ++ "\n" ++ joinNL l := by
  match l with
  | [] => exact absurd rfl h
  | a :: rest => rfl

/-- Python join distributes over list append (both parts nonempty). -/
theorem joinNL_append (a b : List String) (ha : a ≠ []) (hb : b ≠ []) :
    joinNL (a ++ b) = joinNL a ++ "\n" ++ joinNL b := by
  induction a with
  | nil => exact absurd rfl ha
  | cons x a ih =>
      match a with
      | [] =>
          rw [List.singleton_append, joinNL_cons x b hb]
          rfl
      | y :: a2 =>
          rw [List.cons_append, joinNL_cons x ((y :: a2) ++ b) (by simp),
            joinNL_cons x (y :: a2) (by simp), ih (by simp)]
          simp [String.append_assoc]

/-- A join is at least as long as its first element. -/
theorem joinNL_length_ge (s : String) (l : List String) :
    s.length ≤ (joinNL (s :: l)).length := by
  match l with
  | [] => exact le_refl _
  | a :: rest =>
      rw [joinNL_cons s (a :: rest) (by simp)]
      simp only [String.length_append]
      omega

/-- A join whose first element is nonempty is nonempty. -/
theorem joinNL_ne_empty (s : String) (l : List String) (hs : s ≠ "") :
    joinNL (s :: l) ≠ "" := by
  intro hcon
  have h1 := joinNL_length_ge s l
  rw [hcon] at h1
  have h2 : s.length = 0 := by
    have : ("" : String).length = 0 := rfl
    omega
  have h3 : s.data = [] := List.length_eq_zero.mp h2
  apply hs
  rw [← strMk_data s, h3]

/-- A newline-free character list is a single line. -/
theorem splitNLChars_no_newline (l : List Char) (h : '\n' ∉ l) :
    splitNLChars l = [l] := by
  induction l with
  | nil => rfl
  | cons c cs ih =>
      have hc : c ≠ '\n' := fun he => h (he ▸ List.mem_cons_self c cs)
      have hcs : '\n' ∉ cs := fun hm => h (List.mem_cons_of_mem c hm)
      rw [splitNLChars]
      simp only [hc, if_false, ih hcs]

/-- Splitting around an explicit newline separating a newline-free prefix. -/
theorem splitNLChars_append (a b : List Char) (h : '\n' ∉ a) :
    splitNLChars (a ++ '\n' :: b) = a :: splitNLChars b := by
  induction a with
  | nil => simp [splitNLChars]
  | cons c cs ih =>
      have hc : c ≠ '\n' := fun he => h (he ▸ List.mem_cons_self c cs)
      have hcs : '\n' ∉ cs := fun hm => h (List.mem_cons_of_mem c hm)
      rw [List.cons_append, splitNLChars]
      simp only [hc, if_false, ih hcs]

/-- Splitting a newline-join of newline-free lines recovers the lines. -/
theorem strLines_joinNL (ls : List String) (h1 : ls ≠ [])
    (h2 : ∀ s ∈ ls, '\n' ∉ s.data) : strLines (joinNL ls) = ls := by
  induction ls with
  | nil => exact absurd rfl h1
  | cons s l ih =>
      match l with
      | [] =>
          show strLines (joinNL [s]) = [s]
          have hs : '\n' ∉ s.data := h2 s (by simp)
          simp [strLines, joinNL, splitNLChars_no_newline s.data hs, strMk_data]
      | a :: rest =>
          rw [joinNL_cons s (a :: rest) (by simp)]
          have hs : '\n' ∉ s.data := h2 s (by simp)
          have hdata : (s ++ "\n" ++ joinNL (a :: rest)).data =
              s.data ++ '\n' :: (joinNL (a :: rest)).data := by
            simp [String.data_append]
          rw [strLines, hdata, splitNLChars_append s.data _ hs]
          rw [List.map_cons, strMk_data]
          have ihr := ih (by simp) (fun x hx => h2 x (List.mem_cons_of_mem s hx))
          rw [strLines] at ihr
          rw [ihr]

/-- Every node recorded by the traversal of a tree rooted at depth `d`
lies at depth at least `d`. -/
theorem nodesWithDepth_depth_ge (n : MindmapNode) :
    ∀ (d : Nat) (p : Nat × String), p ∈ nodesWithDepth n d → d ≤ p.1 := by
  induction n using mindmap_induction with
  | h t cs ih =>
      intro d p hp
      rw [nodesWithDepth] at hp
      rcases List.mem_cons.mp hp with rfl | hp2
      · exact le_refl d
      · have haux : ∀ (l : List MindmapNode), (∀ c ∈ l, c ∈ cs) →
            p ∈ nodesWithDepthList l (d + 1) → d + 1 ≤ p.1 := by
          intro l
          induction l with
          | nil => intro _ hmem; simp [nodesWithDepthList] at hmem
          | cons c l2 ihl =>
              intro hsub hmem
              rw [nodesWithDepthList] at hmem
              rcases List.mem_append.mp hmem with hm1 | hm2
              · exact ih c (hsub c (by simp)) (d + 1) p hm1
              · exact ihl (fun x hx => hsub x (List.mem_cons_of_mem c hx)) hm2
        have := haux cs (fun c hc => hc) hp2
        omega

/-- List version of `nodesWithDepth_depth_ge`. -/
theorem nodesWithDepthList_depth_ge (l : List MindmapNode) :
    ∀ (d : Nat) (p : Nat × String), p ∈ nodesWithDepthList l d → d ≤ p.1 := by
  induction l with
  | nil => intro d p hp; simp [nodesWithDepthList] at hp
  | cons c l2 ih =>
      intro d p hp
      rw [nodesWithDepthList] at hp
      rcases List.mem_append.mp hp with hm | hm
      · exact nodesWithDepth_depth_ge c d p hm
      · exact ih d p hm

/-- The renderer emits exactly one heading line per node of depth `< md`,
in preorder, with heading level `depth + 1` and no cap: its line list is
the depth-filtered traversal mapped through the heading constructor. -/
theorem renderLines_eq_filter (n : MindmapNode) :
    ∀ (md : Int) (d : Nat), renderLines n md d =
      ((nodesWithDepth n d).filter (fun p => decide ((p.1 : Int) < md))).map
        (fun p => hashes (p.1 + 1) ++ " " ++ p.2) := by
  induction n using mindmap_induction with
  | h t cs ih =>
      intro md d
      rw [renderLines, nodesWithDepth]
      by_cases hd : (d : Int) ≥ md
      · rw [if_pos hd]
        rw [List.filter_cons_of_neg (by simp; omega)]
        have hnil : (nodesWithDepthList cs (d + 1)).filter
            (fun p => decide ((p.1 : Int) < md)) = [] := by
          rw [List.filter_eq_nil_iff]
          intro p hp
          have := nodesWithDepthList_depth_ge cs (d + 1) p hp
          simp
          omega
        rw [hnil]
        rfl
      · rw [if_neg hd]
        rw [List.filter_cons_of_pos (by simp; omega)]
        rw [List.map_cons]
        have haux : ∀ (l : List MindmapNode), (∀ c ∈ l, c ∈ cs) →
            renderLinesList l md (d + 1) =
              ((nodesWithDepthList l (d + 1)).filter
                (fun p => decide ((p.1 : Int) < md))).map
                (fun p => hashes (p.1 + 1) ++ " " ++ p.2) := by
          intro l
          induction l with
          | nil => intro _; rfl
          | cons c l2 ihl =>
              intro hsub
              rw [renderLinesList, nodesWithDepthList, List.filter_append, List.map_append]
              rw [ih c (hsub c (by simp)) md (d + 1)]
              rw [ihl (fun x hx => hsub x (List.mem_cons_of_mem c hx))]
        rw [haux cs (fun c hc => hc)]

/-- A string with characters is not empty. -/
theorem str_ne_empty_of_data_ne_nil (s : String) (h : s.data ≠ []) : s ≠ "" := by
  intro hcon
  apply h
  rw [hcon]

/-- A heading line is never the empty string. -/
theorem heading_line_ne_empty (k : Nat) (t : String) :
    hashes (k + 1) ++ " " ++ t ≠ "" := by
  apply str_ne_empty_of_data_ne_nil
  simp [String.data_append, hashes]

/-- `_json_to_markdown` produces exactly the newline-join of its heading
lines, and both the render and its line list are empty precisely for a
pruned root (`current_depth >= max_depth`). -/
theorem json_to_markdown_spec (n : MindmapNode) :
    ∀ (md : Int) (d : Nat),
      json_to_markdown n md d = joinNL (renderLines n md d) ∧
      (renderLines n md d = [] ↔ (d : Int) ≥ md) ∧
      (json_to_markdown n md d = "" ↔ (d : Int) ≥ md) := by
  induction n using mindmap_induction with
  | h t cs ih =>
      intro md d
      by_cases hd : (d : Int) ≥ md
      · rw [json_to_markdown, renderLines, if_pos hd, if_pos hd]
        exact ⟨rfl, by simp [hd], by simp [hd]⟩
      · rw [json_to_markdown, renderLines, if_neg hd, if_neg hd]
        have hline := heading_line_ne_empty d t
        have haux : ∀ (l : List MindmapNode), (∀ c ∈ l, c ∈ cs) → ∀ (x : String),
            joinNL (x :: child_blocks l md (d + 1)) =
              joinNL (x :: renderLinesList l md (d + 1)) := by
          intro l
          induction l with
          | nil => intro _ x; rfl
          | cons c l2 ihl =>
              intro hsub x
              have hc := ih c (hsub c (by simp)) md (d + 1)
              obtain ⟨hjc, hrc, hje⟩ := hc
              rw [child_blocks, renderLinesList]
              by_cases hcd : ((d : Int) + 1) ≥ md
              · have hm : json_to_markdown c md (d + 1) = "" := by
                  rw [hje]
                  push_cast
                  omega
                have hr : renderLines c md (d + 1) = [] := by
                  rw [hrc]
                  push_cast
                  omega
                rw [hm, if_pos rfl, hr, List.nil_append]
                exact ihl (fun y hy => hsub y (List.mem_cons_of_mem c hy)) x
              · have hrne : renderLines c md (d + 1) ≠ [] := by
                  intro hcon
                  rw [hrc] at hcon
                  push_cast at hcon
                  omega
                have hmne : json_to_markdown c md (d + 1) ≠ "" := by
                  intro hcon
                  rw [hje] at hcon
                  push_cast at hcon
                  omega
                rw [if_neg hmne]
                obtain ⟨hc0, tc, hrceq⟩ := List.exists_cons_of_ne_nil hrne
                have hihl := ihl (fun y hy => hsub y (List.mem_cons_of_mem c hy))
                rw [joinNL_cons x (json_to_markdown c md (d + 1) :: child_blocks l2 md (d + 1))
                  (by simp)]
                rw [hihl (json_to_markdown c md (d + 1))]
                rw [joinNL_cons x (renderLines c md (d + 1) ++ renderLinesList l2 md (d + 1))
                  (by simp [hrne])]
                congr 1
                match hrl : renderLinesList l2 md (d + 1) with
                | [] =>
                    rw [List.append_nil]
                    rw [show joinNL [json_to_markdown c md (d + 1)] =
                      json_to_markdown c md (d + 1) from rfl]
                    exact hjc
                | y :: ys =>
                    rw [joinNL_cons (json_to_markdown c md (d + 1)) (y :: ys) (by simp)]
                    rw [joinNL_append (renderLines c md (d + 1)) (y :: ys) hrne (by simp)]
                    rw [hjc]
        refine ⟨haux cs (fun c hc => hc) _, by simp [hd], ?_⟩
        constructor
        · intro hcon
          exact absurd hcon (joinNL_ne_empty _ _ hline)
        · intro hcon
          exact absurd hcon hd

/-- Members of a newline-free forest are newline-free. -/
theorem newlineFreeList_mem (l : List MindmapNode) (h : newlineFreeList l = true) :
    ∀ c ∈ l, newlineFree c = true := by
  induction l with
  | nil => intro c hc; simp at hc
  | cons a l2 ih =>
      rw [newlineFreeList, Bool.and_eq_true] at h
      intro c hc
      rcases List.mem_cons.mp hc with rfl | hc2
      · exact h.1
      · exact ih h.2 c hc2

/-- In a newline-free tree every traversed title is newline-free. -/
theorem newlineFree_titles (n : MindmapNode) :
    newlineFree n = true →
    ∀ (d : Nat) (p : Nat × String), p ∈ nodesWithDepth n d → '\n' ∉ p.2.data := by
  induction n using mindmap_induction with
  | h t cs ih =>
      intro hn d p hp
      rw [newlineFree, Bool.and_eq_true] at hn
      rw [nodesWithDepth] at hp
      rcases List.mem_cons.mp hp with rfl | hp2
      · intro hmem
        have : t.data.contains '\n' = true := by
          rw [List.elem_iff]
          exact hmem
        rw [this] at hn
        exact absurd hn.1 (by simp)
      · have haux : ∀ (l : List MindmapNode), (∀ c ∈ l, c ∈ cs) →
            p ∈ nodesWithDepthList l (d + 1) → '\n' ∉ p.2.data := by
          intro l
          induction l with
          | nil => intro _ hmem; simp [nodesWithDepthList] at hmem
          | cons c l2 ihl =>
              intro hsub hmem
              rw [nodesWithDepthList] at hmem
              rcases List.mem_append.mp hmem with hm | hm
              · exact ih c (hsub c (by simp))
                  (newlineFreeList_mem cs hn.2 c (hsub c (by simp))) (d + 1) p hm
              · exact ihl (fun y hy => hsub y (List.mem_cons_of_mem c hy)) hm
        exact haux cs (fun c hc => hc) hp2

/-- Lines rendered from a newline-free tree contain no newline. -/
theorem renderLines_no_newline (n : MindmapNode) (md : Int) (d : Nat)
    (h : newlineFree n = true) :
    ∀ s ∈ renderLines n md d, '\n' ∉ s.data := by
  rw [renderLines_eq_filter]
  intro s hs
  rcases List.mem_map.mp hs with ⟨p, hpf, rfl⟩
  have hp := List.mem_of_mem_filter hpf
  have ht := newlineFree_titles n h d p hp
  intro hmem
  rw [String.data_append, String.data_append] at hmem
  rcases List.mem_append.mp hmem with hm | hm
  · rcases List.mem_append.mp hm with hm2 | hm2
    · have hm3 : '\n' ∈ List.replicate (p.1 + 1) '#' := hm2
      have := List.eq_of_mem_replicate hm3
      simp at this
    · simp at hm2
  · exact ht hm

/-- For a newline-free tree with a positive depth budget, the lines of the
rendered markdown are exactly the renderer's heading lines. -/
theorem strLines_json_to_markdown (n : MindmapNode) (md : Int)
    (h : newlineFree n = true) (hmd : ¬ ((0 : Int) ≥ md)) :
    strLines (json_to_markdown n md 0) = renderLines n md 0 := by
  obtain ⟨hj, hr, _⟩ := json_to_markdown_spec n md 0
  rw [hj]
  apply strLines_joinNL
  · intro hcon
    exact hmd (hr.mp hcon)
  · exact renderLines_no_newline n md 0 h

/-- The leading hash run of `k` hashes followed by a space has length `k`. -/
theorem countLeadingHash_heading (k : Nat) (l : List Char) :
    countLeadingHash (List.replicate k '#' ++ ' ' :: l) = k := by
  induction k with
  | zero => simp [countLeadingHash]
  | succ k ih =>
      rw [List.replicate_succ, List.cons_append, countLeadingHash]
      simp [ih]
      omega

/-- The markdown heading level of an emitted line equals its hash count. -/
theorem leadingHashes_heading (k : Nat) (t : String) :
    leadingHashes (hashes k ++ " " ++ t) = k := by
  rw [leadingHashes, String.data_append, String.data_append]
  have h1 : (hashes k).data = List.replicate k '#' := rfl
  have h2 : (" " : String).data = [' '] := rfl
  rw [h1, h2, List.append_assoc, List.singleton_append]
  exact countLeadingHash_heading k t.data

/-- C8: for every newline-free parsed mindmap tree of actual depth 6
rendered with `maxDepth = 3`, no line of the rendered markdown is a heading
deeper than level 3 (nodes at depth 3 and beyond are pruned entirely),
while any successful generate call reports metadata computed over the full
unpruned tree: `total_nodes = count_nodes t` and `actual_depth = 6`. -/
theorem C8_depth_pruning_and_metadata (t : MindmapNode) (complexity style : String)
    (h1 : newlineFree t = true) (h6 : calculate_depth t 1 = 6) :
    (∀ l ∈ strLines (json_to_markdown t 3 0), leadingHashes l ≤ 3) ∧
    (∀ r, mindmap_generate_from_parsed t ⟨complexity, 3, style⟩ = .ok r →
      r.metadata = [("total_nodes", (count_nodes t : Int)), ("actual_depth", 6),
        ("requested_max_depth", 3)]) := by
  constructor
  · intro l hl
    rw [strLines_json_to_markdown t 3 h1 (by norm_num)] at hl
    rw [renderLines_eq_filter] at hl
    rcases List.mem_map.mp hl with ⟨p, hpf, rfl⟩
    have hplt := List.of_mem_filter hpf
    rw [decide_eq_true_eq] at hplt
    rw [leadingHashes_heading]
    omega
  · intro r hr
    rw [mindmap_generate_from_parsed] at hr
    dsimp only at hr
    split at hr
    · exact absurd hr (by simp)
    · have hinj := Except.ok.inj hr
      rw [← hinj]
      simp [h6]

/-- C9 counterexample: in a 7-level chain rendered with `maxDepth = 10`,
the node at depth 6 is emitted as a level-7 heading (`#######`), although
the claim says its level is `min(6 + 1, 6) = 6` and never exceeds the
markdown maximum of 6 — `_json_to_markdown` has no such cap. -/
theorem C9_min_cap_refuted :
    (6, "Level seven") ∈ nodesWithDepth (MindmapNode.node "Level one" [.node "Level two"
      [.node "Level three" [.node "Level four" [.node "Level five" [.node "Level six"
        [.node "Level seven" []]]]]]]) 0 ∧
    "####### Level seven" ∈ strLines (json_to_markdown (MindmapNode.node "Level one"
      [.node "Level two" [.node "Level three" [.node "Level four" [.node "Level five"
        [.node "Level six" [.node "Level seven" []]]]]]]) 10 0) ∧
    leadingHashes "####### Level seven" = 7 ∧
    Nat.min (6 + 1) 6 = 6 := by
  refine ⟨by decide, by decide, by decide, by decide⟩

/-- C9 amended: for every newline-free tree and `maxDepth ≥ 1`, the
renderer emits exactly one heading line per non-pruned node at depth `d`
(depth-first, pruning nodes at depth `≥ maxDepth` entirely), and that
line's heading level is exactly `d + 1`, with no cap at the notation's
maximum of 6. -/
theorem C9_heading_level_uncapped (t : MindmapNode) (md : Int)
    (h1 : newlineFree t = true) (h2 : 1 ≤ md) :
    strLines (json_to_markdown t md 0) =
      ((nodesWithDepth t 0).filter (fun p => decide ((p.1 : Int) < md))).map
        (fun p => hashes (p.1 + 1) ++ " " ++ p.2) := by
  rw [strLines_json_to_markdown t md h1 (by omega)]
  exact renderLines_eq_filter t md 0

/-- C9 witness: the amended statement evaluated on the 7-level chain. -/
theorem C9_heading_level_uncapped_witness :
    strLines (json_to_markdown (MindmapNode.node "Level one" [.node "Level two"
      [.node "Level three" [.node "Level four" [.node "Level five" [.node "Level six"
        [.node "Level seven" []]]]]]]) 10 0) =
      ((nodesWithDepth (MindmapNode.node "Level one" [.node "Level two"
        [.node "Level three" [.node "Level four" [.node "Level five" [.node "Level six"
          [.node "Level seven" []]]]]]]) 0).filter
        (fun p => decide ((p.1 : Int) < 10))).map
        (fun p => hashes (p.1 + 1) ++ " " ++ p.2) :=
  C9_heading_level_uncapped (MindmapNode.node "Level one" [.node "Level two"
    [.node "Level three" [.node "Level four" [.node "Level five" [.node "Level six"
      [.node "Level seven" []]]]]]]) 10 (by decide) (by decide)

/-- C10: `max_depth` is an unvalidated `int`, and for every
`max_depth ≤ 0` the renderer returns the empty string, `validate_content`
rejects it, and the mindmap generate path always raises (a `ValueError`
re-raised as `RuntimeError` by the catch-all) instead of succeeding. -/
theorem C10_nonpositive_max_depth (md : Int) (t : MindmapNode)
    (complexity style : String) (h : md ≤ 0) :
    json_to_markdown t md 0 = "" ∧
    mindmap_validate_content "" = false ∧
    mindmap_generate_from_parsed t ⟨complexity, md, style⟩ =
      .error (.runtimeError
        "Mindmap generation failed: Generated mindmap markdown content is invalid.") := by
  have hj : json_to_markdown t md 0 = "" := by
    match t with
    | .node s cs => rw [json_to_markdown, if_pos (by push_cast; omega)]
  refine ⟨hj, by decide, ?_⟩
  show (if !mindmap_validate_content (json_to_markdown t md 0) then
      Except.error (PyExc.runtimeError
        "Mindmap generation failed: Generated mindmap markdown content is invalid.")
    else _) = _
  rw [hj]
  rfl

/-- C10 witness: `max_depth = 0` on a one-node tree. -/
theorem C10_nonpositive_max_depth_witness :
    json_to_markdown (.node "Root" []) 0 0 = "" ∧
    mindmap_validate_content "" = false ∧
    mindmap_generate_from_parsed (.node "Root" []) ⟨"balanced", 0, "default"⟩ =
      .error (.runtimeError
        "Mindmap generation failed: Generated mindmap markdown content is invalid.") :=
  C10_nonpositive_max_depth 0 (.node "Root" []) "balanced" "default" (by decide)

/-- C8 witness: a concrete 6-deep chain rendered with `maxDepth = 3`. -/
theorem C8_depth_pruning_and_metadata_witness :
    leadingHashes "### Level three" ≤ 3 ∧
    ({ type := "mindmap", content := "# Root topic\n## Level two\n### Level three",
       metadata := [("total_nodes", 6), ("actual_depth", 6), ("requested_max_depth", 3)] } :
      VisualizationResult).metadata =
      [("total_nodes", (count_nodes (MindmapNode.node "Root topic" [.node "Level two"
        [.node "Level three" [.node "Level four" [.node "Level five"
          [.node "Level six leaf" []]]]]]) : Int)), ("actual_depth", 6),
        ("requested_max_depth", 3)] :=
  ⟨(C8_depth_pruning_and_metadata (MindmapNode.node "Root topic" [.node "Level two"
      [.node "Level three" [.node "Level four" [.node "Level five"
        [.node "Level six leaf" []]]]]]) "balanced" "default" (by decide) (by decide)).1
      "### Level three" (by decide),
   (C8_depth_pruning_and_metadata (MindmapNode.node "Root topic" [.node "Level two"
      [.node "Level three" [.node "Level four" [.node "Level five"
        [.node "Level six leaf" []]]]]]) "balanced" "default" (by decide) (by decide)).2
      { type := "mindmap", content := "# Root topic\n## Level two\n### Level three",
        metadata := [("total_nodes", 6), ("actual_depth", 6), ("requested_max_depth", 3)] }
      (by decide)⟩
